import Mathlib

/-!
Verification of the Opening-Range-Breakout (ORB) signal detection and
trade-simulation engine of the `htmw` repository.

The TypeScript sources are embedded shallowly:

* JavaScript numbers are modelled as exact rationals (`ℚ`); the places where
  the aggregation code can produce `Infinity`/`NaN` (division by a zero
  denominator) are modelled explicitly with the `JsNum` type and `jsDiv`,
  mirroring IEEE semantics for those exact cases.
* `Math.abs` is `jsAbs`, `Math.max(...xs)` / `Math.min(...xs)` over a spread
  are `jsMaxList` / `jsMinList` (all call sites guard nonemptiness).
* The one file-system boundary (`loadState`) models the outcome of
  `fs.existsSync` / `fs.readFileSync` / `JSON.parse` as a `FileRead` value;
  an exception escaping (there is no try/catch in `loadState`) is
  `Except.error`.
-/

namespace Htmw

/-- OHLCV bar as produced by the data fetcher and consumed by every strategy
file: `{date, open, high, low, close, volume}` (`open` is a Lean keyword, so
the field is `open_`). -/
structure Candle where
  date : String
  open_ : ℚ
  high : ℚ
  low : ℚ
  close : ℚ
  volume : ℚ
  deriving DecidableEq, Repr

/-- The TypeScript string-literal union `'LONG' | 'SHORT'`. -/
inductive Side where
  | LONG
  | SHORT
  deriving DecidableEq, Repr

/-- A candle that stands for the out-of-bounds result of a JS array index;
never reached on the guarded paths. -/
def dummyCandle : Candle := ⟨"", 0, 0, 0, 0, 0⟩

/-- `Math.abs` on a finite number. -/
def jsAbs (q : ℚ) : ℚ := if q < 0 then -q else q

/-- `Math.max(...xs)` for a nonempty list (the `[]` value is never used:
every call site first checks there are enough candles). -/
def jsMaxList : List ℚ → ℚ
  | [] => 0
  | x :: xs => xs.foldl max x

/-- `Math.min(...xs)`, same conventions as `jsMaxList`. -/
def jsMinList : List ℚ → ℚ
  | [] => 0
  | x :: xs => xs.foldl min x

/-! ## The portfolio backtest (`src/src/tools/getPortfolio.ts`, backtest half)

`checkSignal` (lines 344-401), `simulateTrade` (403-465) and the final
report of `runPortfolioBacktest` (330-341). -/

/-- The `Signal` interface of getPortfolio.ts: entry/stop/first-target prices,
range height, relative volume, and the tail of the day's candles from the
trigger bar on. -/
structure Signal where
  symbol : String
  side : Side
  entryPrice : ℚ
  stop : ℚ
  target1 : ℚ
  rangeHeight : ℚ
  relVol : ℚ
  candles : List Candle
  deriving DecidableEq, Repr

/-- `Math.max(...openingRange.map(c => c.high))` over the first 6 candles. -/
def orbRangeHigh (candles : List Candle) : ℚ :=
  jsMaxList ((candles.take 6).map (·.high))

/-- `Math.min(...openingRange.map(c => c.low))` over the first 6 candles. -/
def orbRangeLow (candles : List Candle) : ℚ :=
  jsMinList ((candles.take 6).map (·.low))

/-- `openingRange.reduce((sum, c) => sum + c.volume, 0) / 6`. -/
def orbAvgVol (candles : List Candle) : ℚ :=
  ((candles.take 6).map (·.volume)).sum / 6

/-- The breakout scan of `checkSignal` (getPortfolio.ts 372-393), `i` being
the absolute index of the head of the remaining list.  A bar with
`c.volume > 0 && c.volume < avgVol * 0.8` is skipped; otherwise the bar
triggers LONG on `c.high > rangeHigh` (checked first), else SHORT on
`c.low < rangeLow`, else the scan moves on.  Returns the trigger index, the
side, and the bar's relative volume `avgVol > 0 ? c.volume / avgVol : 0`. -/
def scanTrigger (rangeHigh rangeLow avgVol : ℚ) :
    List Candle → ℕ → Option (ℕ × Side × ℚ)
  | [], _ => none
  | c :: rest, i =>
    if 0 < c.volume ∧ c.volume < avgVol * (4/5) then
      scanTrigger rangeHigh rangeLow avgVol rest (i + 1)
    else if rangeHigh < c.high then
      some (i, Side.LONG, if 0 < avgVol then c.volume / avgVol else 0)
    else if c.low < rangeLow then
      some (i, Side.SHORT, if 0 < avgVol then c.volume / avgVol else 0)
    else
      scanTrigger rangeHigh rangeLow avgVol rest (i + 1)

/-- `checkSignal(symbol, candles, prevClose)` (getPortfolio.ts 344-401):
require at least 7 candles, a first close of at least $5, an open gap of at
least 0.2% against the prior close, a range percent inside [0.005, 0.12],
then scan for the first breakout bar and package the `Signal`, keeping the
candles from the trigger bar on (`candles.slice(triggerIndex)`). -/
def checkSignal (symbol : String) (candles : List Candle) (prevClose : ℚ) :
    Option Signal :=
  if candles.length < 7 then none
  else
    let c0 := candles.headD dummyCandle
    let rangeHigh := orbRangeHigh candles
    let rangeLow := orbRangeLow candles
    let rangeHeight := rangeHigh - rangeLow
    if c0.close < 5 then none
    else if jsAbs ((c0.open_ - prevClose) / prevClose) < 1/500 then none
    else if rangeHeight / rangeLow < 1/200 ∨ 12/100 < rangeHeight / rangeLow then none
    else
      match scanTrigger rangeHigh rangeLow (orbAvgVol candles) (candles.drop 6) 6 with
      | none => none
      | some (i, Side.LONG, rv) =>
        some ⟨symbol, Side.LONG, rangeHigh, rangeLow, rangeHigh + rangeHeight,
              rangeHeight, rv, candles.drop i⟩
      | some (i, Side.SHORT, rv) =>
        some ⟨symbol, Side.SHORT, rangeLow, rangeHigh, rangeLow - rangeHeight,
              rangeHeight, rv, candles.drop i⟩

/-- A bar passes `checkSignal`'s relaxed volume gate (the scan `continue`s
exactly when `c.volume > 0 && c.volume < avgVol * 0.8`). -/
def volGate (avgVol : ℚ) (c : Candle) : Prop :=
  ¬(0 < c.volume ∧ c.volume < avgVol * (4/5))

/-- A bar breaches the opening range on either side. -/
def breaches (rangeHigh rangeLow : ℚ) (c : Candle) : Prop :=
  rangeHigh < c.high ∨ c.low < rangeLow

/-- The mutable per-trade state of `simulateTrade`'s loop: `scaledOut`,
the current `stop`, and the accumulated scale-out PnL `pnlAcc`. -/
structure SimState where
  scaledOut : Bool
  stop : ℚ
  pnlAcc : ℚ
  deriving DecidableEq, Repr

/-- One candle of `simulateTrade`'s loop (getPortfolio.ts 415-442): first the
scale-out check (`!scaledOut && high >= target1` for LONG, mirrored for
SHORT) which banks half the 1R move and moves the stop to entry, then the
stop check, which exits at the current stop with reason `TRAIL_STOP` when
already scaled out and `STOP` otherwise. -/
def simStep (sig : Signal) (st : SimState) (c : Candle) :
    SimState × Option (ℚ × String) :=
  match sig.side with
  | Side.LONG =>
    let st1 := if ¬st.scaledOut ∧ sig.target1 ≤ c.high then
        ⟨true, sig.entryPrice, st.pnlAcc + (sig.target1 - sig.entryPrice) * (1/2)⟩
      else st
    if c.low ≤ st1.stop then
      (st1, some (st1.stop, if st1.scaledOut then "TRAIL_STOP" else "STOP"))
    else (st1, none)
  | Side.SHORT =>
    let st1 := if ¬st.scaledOut ∧ c.low ≤ sig.target1 then
        ⟨true, sig.entryPrice, st.pnlAcc + (sig.entryPrice - sig.target1) * (1/2)⟩
      else st
    if st1.stop ≤ c.high then
      (st1, some (st1.stop, if st1.scaledOut then "TRAIL_STOP" else "STOP"))
    else (st1, none)

/-- The candle loop of `simulateTrade` (getPortfolio.ts 415-448): run
`simStep` bar by bar, breaking at the first exit; on the last candle with no
exit, exit at that candle's close with reason `EOD`.  Yields the final state
together with `exitPrice` and `reason`; on an empty list they keep their JS
initial values `0` and `""`. -/
def simRun (sig : Signal) (st : SimState) : List Candle → SimState × ℚ × String
  | [] => (st, 0, "")
  | [c] =>
    match simStep sig st c with
    | (st1, some pr) => (st1, pr.1, pr.2)
    | (st1, none) => (st1, c.close, "EOD")
  | c :: c2 :: rest =>
    match simStep sig st c with
    | (st1, some pr) => (st1, pr.1, pr.2)
    | (st1, none) => simRun sig st1 (c2 :: rest)

/-- The `Trade` interface of getPortfolio.ts. -/
structure Trade where
  symbol : String
  entryTime : String
  exitTime : String
  side : Side
  entryPrice : ℚ
  exitPrice : ℚ
  pnl : ℚ
  returnPercent : ℚ
  reason : String
  relVol : ℚ
  deriving DecidableEq, Repr

/-- `simulateTrade(sig)` (getPortfolio.ts 403-465): run the loop from
`{scaledOut: false, stop: sig.stop, pnlAcc: 0}`; `if (!exitPrice) return
null`; otherwise close the remaining fraction (0.5 when scaled out, 1.0
otherwise) at the exit price and report
`returnPercent = totalPnl / entryPrice * 100`. -/
def simulateTrade (sig : Signal) : Option Trade :=
  let r := simRun sig ⟨false, sig.stop, 0⟩ sig.candles
  if r.2.1 = 0 then none
  else
    let remainingQty : ℚ := if r.1.scaledOut then 1/2 else 1
    let finalPnl :=
      (if sig.side = Side.LONG then r.2.1 - sig.entryPrice
       else sig.entryPrice - r.2.1) * remainingQty
    let totalPnl := r.1.pnlAcc + finalPnl
    some ⟨sig.symbol, (sig.candles.headD dummyCandle).date,
          (sig.candles.getLastD dummyCandle).date, sig.side, sig.entryPrice,
          r.2.1, totalPnl, totalPnl / sig.entryPrice * 100, r.2.2, sig.relVol⟩

/-- A JavaScript number as the reporting code can produce it: a finite value,
`Infinity`, `-Infinity`, or `NaN`. -/
inductive JsNum where
  | num (q : ℚ)
  | inf
  | negInf
  | nan
  deriving DecidableEq, Repr

/-- JS division of finite numbers: `a / 0` is `NaN` when `a = 0`, otherwise
a signed infinity. -/
def jsDiv (a b : ℚ) : JsNum :=
  if b = 0 then (if a = 0 then JsNum.nan else if 0 < a then JsNum.inf else JsNum.negInf)
  else JsNum.num (a / b)

/-- Multiplication of a JS value by a positive finite constant (only `* 100`
in the report), which preserves `NaN` and the infinities. -/
def jsMulPos (x : JsNum) (c : ℚ) : JsNum :=
  match x with
  | JsNum.num q => JsNum.num (q * c)
  | JsNum.inf => JsNum.inf
  | JsNum.negInf => JsNum.negInf
  | JsNum.nan => JsNum.nan

/-- The figures `runPortfolioBacktest` prints (getPortfolio.ts 330-341). -/
structure PortfolioReport where
  totalTrades : ℕ
  winRate : JsNum
  avgReturn : JsNum
  totalReturn : ℚ
  profitFactor : JsNum
  deriving DecidableEq, Repr

/-- The final report of `runPortfolioBacktest` (getPortfolio.ts 330-341):
`winRate = (wins.length / trades.length) * 100`,
`avgReturn = totalReturn / trades.length`, and
`profitFactor = sum(winning returns) / Math.abs(sum(losing returns))`,
each a bare division with no zero guard. -/
def portfolioReport (portfolioTrades : List Trade) : PortfolioReport :=
  let wins := portfolioTrades.filter (fun t => 0 < t.pnl)
  let losers := portfolioTrades.filter (fun t => t.pnl < 0)
  let totalReturn := (portfolioTrades.map (·.returnPercent)).sum
  ⟨portfolioTrades.length,
   jsMulPos (jsDiv wins.length portfolioTrades.length) 100,
   jsDiv totalReturn portfolioTrades.length,
   totalReturn,
   jsDiv ((wins.map (·.returnPercent)).sum)
     (jsAbs ((losers.map (·.returnPercent)).sum))⟩

/-! ## The intraday ORB backtest (`src/unnamed/part_007`)

`groupCandlesByDay`, `backtestDay` and `backtestIntraday`. -/

/-- `ORBParams` of part_007. -/
structure ORBParams where
  rangeMinutes : ℕ
  profitTargetR : ℚ
  stopLossR : ℚ
  useTrailingStop : Bool
  trailingStopPercent : Option ℚ
  maxHoldMinutes : ℕ
  deriving DecidableEq, Repr

/-- `IntradayTrade` of part_007. -/
structure IntradayTrade where
  symbol : String
  entryTime : String
  exitTime : String
  side : Side
  entryPrice : ℚ
  exitPrice : ℚ
  quantity : ℚ
  pnl : ℚ
  pnlPercent : ℚ
  reason : String
  maxRunup : ℚ
  maxDrawdown : ℚ
  deriving DecidableEq, Repr

/-- The in-position local variables of `backtestDay`'s loop. -/
structure DayPos where
  entryPrice : ℚ
  stopPrice : ℚ
  targetPrice : ℚ
  entryTime : String
  deriving DecidableEq, Repr

/-- The in-position branch of `backtestDay`'s loop (part_007 lines 96-154),
in source order: the stop check (`candle.low <= stopPrice`, reason
`STOP_LOSS`) comes first, then the target check (`candle.high >=
targetPrice`, reason `TARGET_HIT`), then the index-based time exit
(`i >= rangeMinutes + maxHoldMinutes`, reason `TIME_EXIT`, at the candle's
close).  `quantity` is the simulated 100 shares. -/
def manageStep (symbol : String) (params : ORBParams) (pos : DayPos)
    (c : Candle) (i : ℕ) : Option IntradayTrade :=
  if c.low ≤ pos.stopPrice then
    some ⟨symbol, pos.entryTime, c.date, Side.LONG, pos.entryPrice,
          pos.stopPrice, 100, (pos.stopPrice - pos.entryPrice) * 100,
          (pos.stopPrice - pos.entryPrice) / pos.entryPrice * 100,
          "STOP_LOSS", 0, 0⟩
  else if pos.targetPrice ≤ c.high then
    some ⟨symbol, pos.entryTime, c.date, Side.LONG, pos.entryPrice,
          pos.targetPrice, 100, (pos.targetPrice - pos.entryPrice) * 100,
          (pos.targetPrice - pos.entryPrice) / pos.entryPrice * 100,
          "TARGET_HIT", 0, 0⟩
  else if params.rangeMinutes + params.maxHoldMinutes ≤ i then
    some ⟨symbol, pos.entryTime, c.date, Side.LONG, pos.entryPrice, c.close,
          100, (c.close - pos.entryPrice) * 100,
          (c.close - pos.entryPrice) / pos.entryPrice * 100, "TIME_EXIT", 0, 0⟩
  else none

/-- The scan/manage loop of `backtestDay` (part_007 77-155) over the candles
after the opening range, `i` the absolute candle index.  Out of a position,
a bar with `candle.high > rangeHigh` enters LONG at `rangeHigh + 0.01`
(slippage) with the stop at `rangeLow` and the target
`entry + rangeHeight * profitTargetR`; the commented-out short branch is
absent.  Yields either the position still open at the end of the loop (or
`none` when no entry happened) or the trade an in-loop exit produced. -/
def dayLoop (symbol : String) (params : ORBParams)
    (rangeHigh rangeLow rangeHeight : ℚ) :
    List Candle → ℕ → Option DayPos → Option DayPos ⊕ IntradayTrade
  | [], _, pos => Sum.inl pos
  | c :: rest, i, none =>
    if rangeHigh < c.high then
      dayLoop symbol params rangeHigh rangeLow rangeHeight rest (i + 1)
        (some ⟨rangeHigh + 1/100, rangeLow,
               rangeHigh + 1/100 + rangeHeight * params.profitTargetR, c.date⟩)
    else
      dayLoop symbol params rangeHigh rangeLow rangeHeight rest (i + 1) none
  | c :: rest, i, some pos =>
    match manageStep symbol params pos c i with
    | some t => Sum.inr t
    | none =>
      dayLoop symbol params rangeHigh rangeLow rangeHeight rest (i + 1) (some pos)

/-- `backtestDay(symbol, dailyData, params)` (part_007 52-177): require
`rangeMinutes + 1` candles, compute the opening range over the first
`rangeMinutes` bars, reject a zero-height range, run the loop from index
`rangeMinutes`, and close a still-open position at the last candle's close
with reason `EOD_EXIT`. -/
def backtestDay (symbol : String) (dailyData : List Candle)
    (params : ORBParams) : Option IntradayTrade :=
  if dailyData.length < params.rangeMinutes + 1 then none
  else
    let rangeHigh := jsMaxList ((dailyData.take params.rangeMinutes).map (·.high))
    let rangeLow := jsMinList ((dailyData.take params.rangeMinutes).map (·.low))
    let rangeHeight := rangeHigh - rangeLow
    if rangeHeight = 0 then none
    else
      match dayLoop symbol params rangeHigh rangeLow rangeHeight
          (dailyData.drop params.rangeMinutes) params.rangeMinutes none with
      | Sum.inr t => some t
      | Sum.inl none => none
      | Sum.inl (some pos) =>
        let lastCandle := dailyData.getLastD dummyCandle
        some ⟨symbol, pos.entryTime, lastCandle.date, Side.LONG, pos.entryPrice,
              lastCandle.close, 100, (lastCandle.close - pos.entryPrice) * 100,
              (lastCandle.close - pos.entryPrice) / pos.entryPrice * 100,
              "EOD_EXIT", 0, 0⟩

/-- `candle.date.split('T')[0]`: the calendar-day grouping key, the prefix of
the date string before its first `'T'`. -/
def splitDayKey (s : String) : String :=
  String.mk (s.data.takeWhile (fun ch => ch ≠ 'T'))

/-- Append a candle to its day's group, keeping first-appearance key order
(JS object keys iterate in insertion order). -/
def insertCandle : List (String × List Candle) → String → Candle →
    List (String × List Candle)
  | [], day, c => [(day, [c])]
  | (d, cs) :: rest, day, c =>
    if d = day then (d, cs ++ [c]) :: rest
    else (d, cs) :: insertCandle rest day c

/-- `groupCandlesByDay(data)` (part_007 39-47) as an association list in
first-appearance order. -/
def groupCandlesByDay (data : List Candle) : List (String × List Candle) :=
  data.foldl (fun gs c => insertCandle gs (splitDayKey c.date) c) []

/-- `backtestIntraday(data, symbol, params)` (part_007 182-196): one
`backtestDay` per session, keeping the trades. -/
def backtestIntraday (data : List Candle) (symbol : String)
    (params : ORBParams) : List IntradayTrade :=
  (groupCandlesByDay data).filterMap (fun g => backtestDay symbol g.2 params)

/-! ## Gap-fill aggregation (`src/unnamed/part_006`): `aggregateResults`. -/

/-- The `Trade` interface of the gap-fill strategy (part_006). -/
structure GapTrade where
  symbol : String
  entryDate : String
  exitDate : String
  entryPrice : ℚ
  exitPrice : ℚ
  gapPercent : ℚ
  pnlPercent : ℚ
  won : Bool
  exitReason : String
  deriving DecidableEq, Repr

/-- The `BacktestResult` interface of part_006; `profitFactor` is the one
field the code can set to `Infinity`, hence its `JsNum` type. -/
structure BacktestResult where
  totalTrades : ℕ
  wins : ℕ
  losses : ℕ
  winRate : ℚ
  avgWinPercent : ℚ
  avgLossPercent : ℚ
  profitFactor : JsNum
  totalReturn : ℚ
  maxDrawdown : ℚ
  trades : List GapTrade
  deriving DecidableEq, Repr

/-- The cumulative-return / max-drawdown fold of `aggregateResults`
(part_006 265-275): state `(cumulative, peak, maxDrawdown)` from
`(100, 100, 0)`. -/
def drawdownFold (trades : List GapTrade) : ℚ × ℚ × ℚ :=
  trades.foldl
    (fun acc t =>
      let cumulative := acc.1 * (1 + t.pnlPercent / 100)
      let peak := max acc.2.1 cumulative
      (cumulative, peak, max acc.2.2 ((peak - cumulative) / peak * 100)))
    (100, 100, 0)

/-- `aggregateResults(trades)` (part_006 233-289).  Winners are the trades
with `won` set, losers the rest;
`profitFactor = totalLosses > 0 ? totalWins / totalLosses : totalWins > 0 ?
Infinity : 0`. -/
def aggregateResults (trades : List GapTrade) : BacktestResult :=
  if trades.length = 0 then ⟨0, 0, 0, 0, 0, 0, JsNum.num 0, 0, 0, []⟩
  else
    let wins := trades.filter (fun t => t.won)
    let losses := trades.filter (fun t => ¬t.won)
    let totalWins := (wins.map (·.pnlPercent)).sum
    let totalLosses := jsAbs ((losses.map (·.pnlPercent)).sum)
    let dd := drawdownFold trades
    ⟨trades.length, wins.length, losses.length,
     (wins.length : ℚ) / trades.length * 100,
     (if 0 < wins.length then (wins.map (·.pnlPercent)).sum / wins.length else 0),
     (if 0 < losses.length then
        jsAbs ((losses.map (·.pnlPercent)).sum / losses.length) else 0),
     (if 0 < totalLosses then JsNum.num (totalWins / totalLosses)
      else if 0 < totalWins then JsNum.inf else JsNum.num 0),
     dd.1 - 100, dd.2.2, trades⟩

/-! ## The live bot (`src/src/trade_bot.ts`)

The `Position` record, `checkPosition` and `loadState`. -/

/-- The `'OPEN' | 'CLOSED'` status literal. -/
inductive PosStatus where
  | OPEN
  | CLOSED
  deriving DecidableEq, Repr

/-- The live bot's `Position` (trade_bot.ts 24-37). -/
structure BotPosition where
  symbol : String
  side : Side
  entryPrice : ℚ
  quantity : ℚ
  initialQty : ℚ
  stopLoss : ℚ
  target1 : ℚ
  timestamp : String
  status : PosStatus
  scaledOut : Bool
  pnl : Option ℚ
  rangeHeight : ℚ
  deriving DecidableEq, Repr

/-- `checkPosition` (trade_bot.ts 113-148) applied to the latest close
`currentPrice` (the data fetch and the log lines are dropped: the function's
effect on the position is pure).  Scale-out first — `!scaledOut &&
currentPrice >= target1` halves the quantity (`Math.floor(q * 0.5)`), moves
the stop to entry and sets `scaledOut` — then the stop check closes the
position at the (possibly just-moved) stop. -/
def checkPosition (pos : BotPosition) (currentPrice : ℚ) : BotPosition :=
  match pos.side with
  | Side.LONG =>
    let p1 := if ¬pos.scaledOut ∧ pos.target1 ≤ currentPrice then
        { pos with quantity := (Int.floor (pos.quantity * (1/2)) : ℚ),
                   stopLoss := pos.entryPrice, scaledOut := true }
      else pos
    if currentPrice ≤ p1.stopLoss then
      { p1 with status := PosStatus.CLOSED,
                pnl := some (p1.stopLoss - p1.entryPrice) }
    else p1
  | Side.SHORT =>
    let p1 := if ¬pos.scaledOut ∧ currentPrice ≤ pos.target1 then
        { pos with quantity := (Int.floor (pos.quantity * (1/2)) : ℚ),
                   stopLoss := pos.entryPrice, scaledOut := true }
      else pos
    if p1.stopLoss ≤ currentPrice then
      { p1 with status := PosStatus.CLOSED,
                pnl := some (p1.entryPrice - p1.stopLoss) }
    else p1

/-- The per-symbol opening-range record stored in `BotState.ranges`. -/
structure RangeInfo where
  high : ℚ
  low : ℚ
  avgVol : ℚ
  prevClose : ℚ
  deriving DecidableEq, Repr

/-- `BotState` (trade_bot.ts 39-44); `ranges` is an association list. -/
structure BotState where
  date : String
  positions : List BotPosition
  ranges : List (String × RangeInfo)
  executed_trades : ℕ
  deriving DecidableEq, Repr

/-- What the `loadState` file boundary can yield: no state file, a file whose
read or `JSON.parse` throws, or a parsed `BotState`. -/
inductive FileRead where
  | absent
  | corrupt
  | parsed (s : BotState)
  deriving DecidableEq, Repr

/-- The fresh empty state `loadState` builds for `today`. -/
def freshState (today : String) : BotState := ⟨today, [], [], 0⟩

/-- `loadState` (trade_bot.ts 46-58): return the parsed state only when its
`date` equals today's date, otherwise a fresh state.  There is no try/catch,
so a throwing `readFileSync`/`JSON.parse` escapes the function
(`Except.error`). -/
def loadState (today : String) (file : FileRead) : Except Unit BotState :=
  match file with
  | FileRead.absent => Except.ok (freshState today)
  | FileRead.corrupt => Except.error ()
  | FileRead.parsed s =>
    if s.date = today then Except.ok s else Except.ok (freshState today)

/-! ## Concrete instances used by the witnesses and counterexamples -/

/-- 1-minute ORB parameters with a one-bar opening range: range of 1 bar,
1R target, 1R stop, 60-minute hold. -/
def p1 : ORBParams := ⟨1, 1, 1, false, none, 60⟩

/-- A day where bar 1 breaks out (high 10.5 over range high 10, so entry
10.01, stop 9, target 11.01) and bar 2 reaches both the target (high 12)
and the stop (low 8) in the same bar. -/
def dataC1 : List Candle :=
  [⟨"c0", 10, 10, 9, 10, 1⟩, ⟨"c1", 10, 21/2, 10, 51/5, 1⟩,
   ⟨"c2", 11, 12, 8, 11, 1⟩]

/-- The trade `backtestDay` produces on `dataC1`: a stop-loss exit at 9. -/
def tC1 : IntradayTrade :=
  ⟨"X", "c1", "c2", Side.LONG, 1001/100, 9, 100, -101, -10100/1001,
   "STOP_LOSS", 0, 0⟩

/-- The spec's concrete scenario 1: a LONG signal entered at $102 on a
$100-$102 opening range (height $2, so stop $100 and scale-out target $104);
the next bar's high touches $104, the one after that falls back to $102. -/
def sigC3 : Signal :=
  ⟨"X", Side.LONG, 102, 100, 104, 2, 2,
   [⟨"b1", 102, 104, 103, 103, 5⟩, ⟨"b2", 103, 207/2, 102, 103, 5⟩]⟩

/-- The trade `simulateTrade` produces on `sigC3`: half banked at $104 for
$1/share, the rest stopped at breakeven $102, return 50/51 ≈ 0.98%. -/
def tC3 : Trade :=
  ⟨"X", "b1", "b2", Side.LONG, 102, 102, 1, 50/51, "TRAIL_STOP", 2⟩

/-- A 7-candle session over range $100-$102 whose bar 6 (volume 20 against
an opening average of 10) breaks the range high. -/
def wCandles : List Candle :=
  [⟨"d0", 101, 102, 100, 101, 10⟩, ⟨"d1", 101, 101, 100, 101, 10⟩,
   ⟨"d2", 101, 101, 100, 101, 10⟩, ⟨"d3", 101, 101, 100, 101, 10⟩,
   ⟨"d4", 101, 101, 100, 101, 10⟩, ⟨"d5", 101, 101, 100, 101, 10⟩,
   ⟨"d6", 101, 103, 201/2, 102, 20⟩]

/-- The signal `checkSignal` emits on `wCandles` against a prior close of
100: LONG at 102, stop 100, target 104, relative volume 2, trigger bar 6. -/
def wSig : Signal :=
  ⟨"X", Side.LONG, 102, 100, 104, 2, 2, [⟨"d6", 101, 103, 201/2, 102, 20⟩]⟩

/-- One session of three 1-minute bars: bar 1 breaks out, nothing exits in
the loop, so the position closes at the last bar's close. -/
def dataC9 : List Candle :=
  [⟨"2024-01-02T09:30", 10, 10, 9, 10, 1⟩,
   ⟨"2024-01-02T09:31", 10, 21/2, 10, 51/5, 1⟩,
   ⟨"2024-01-02T09:32", 10, 21/2, 10, 10, 1⟩]

/-- The (LONG) trade `backtestIntraday` produces on `dataC9`. -/
def tC9 : IntradayTrade :=
  ⟨"X", "2024-01-02T09:31", "2024-01-02T09:32", Side.LONG, 1001/100, 10, 100,
   -1, -100/1001, "EOD_EXIT", 0, 0⟩

/-- A gap-fill trade with only the fields `aggregateResults` reads. -/
def gTrade (p : ℚ) (w : Bool) : GapTrade := ⟨"X", "e", "x", 1, 1, 0, p, w, "r"⟩

/-- A one-trade portfolio ledger: the winning trade of the `sigC3`
scenario. -/
def wLedger : List Trade :=
  [⟨"X", "b1", "b2", Side.LONG, 102, 102, 1, 50/51, "TRAIL_STOP", 2⟩]

/-- An open LONG bot position: entry 10.01, stop 9, target 11.01. -/
def wPos : BotPosition :=
  ⟨"NVDA", Side.LONG, 1001/100, 240, 240, 9, 1101/100, "t", PosStatus.OPEN,
   false, none, 1⟩

/-- A stored state for 2024-01-01. -/
def wState : BotState := ⟨"2024-01-01", [wPos], [("NVDA", ⟨10, 9, 10, 10⟩)], 1⟩

/-! ## Helper lemmas -/

lemma le_foldl_max (a : ℚ) (l : List ℚ) : a ≤ l.foldl max a := by
  induction l generalizing a with
  | nil => exact le_refl a
  | cons b l ih => exact le_trans (le_max_left a b) (ih (max a b))

lemma foldl_max_le_of_mem {x : ℚ} {l : List ℚ} (hx : x ∈ l) (a : ℚ) :
    x ≤ l.foldl max a := by
  induction l generalizing a with
  | nil => cases hx
  | cons b l ih =>
    simp only [List.foldl]
    rcases List.mem_cons.mp hx with h | h
    · rw [h]
      exact le_trans (le_max_right a b) (le_foldl_max (max a b) l)
    · exact ih h (max a b)

lemma foldl_max_mem (a : ℚ) (l : List ℚ) : l.foldl max a ∈ a :: l := by
  induction l generalizing a with
  | nil => simp [List.foldl]
  | cons b l ih =>
    have h := ih (max a b)
    rcases List.mem_cons.mp h with h1 | h1
    · rcases max_choice a b with hm | hm
      · simp only [List.foldl]
        rw [h1, hm]
        exact List.mem_cons_self a (b :: l)
      · simp only [List.foldl]
        rw [h1, hm]
        exact List.mem_cons_of_mem a (List.mem_cons_self b l)
    · exact List.mem_cons_of_mem a (List.mem_cons_of_mem b h1)

lemma foldl_min_le (a : ℚ) (l : List ℚ) : l.foldl min a ≤ a := by
  induction l generalizing a with
  | nil => exact le_refl a
  | cons b l ih => exact le_trans (ih (min a b)) (min_le_left a b)

lemma le_foldl_min_of_mem {x : ℚ} {l : List ℚ} (hx : x ∈ l) (a : ℚ) :
    l.foldl min a ≤ x := by
  induction l generalizing a with
  | nil => cases hx
  | cons b l ih =>
    simp only [List.foldl]
    rcases List.mem_cons.mp hx with h | h
    · rw [h]
      exact le_trans (foldl_min_le (min a b) l) (min_le_right a b)
    · exact ih h (min a b)

lemma foldl_min_mem (a : ℚ) (l : List ℚ) : l.foldl min a ∈ a :: l := by
  induction l generalizing a with
  | nil => simp [List.foldl]
  | cons b l ih =>
    have h := ih (min a b)
    rcases List.mem_cons.mp h with h1 | h1
    · rcases min_choice a b with hm | hm
      · simp only [List.foldl]
        rw [h1, hm]
        exact List.mem_cons_self a (b :: l)
      · simp only [List.foldl]
        rw [h1, hm]
        exact List.mem_cons_of_mem a (List.mem_cons_self b l)
    · exact List.mem_cons_of_mem a (List.mem_cons_of_mem b h1)

lemma jsMaxList_ge {x : ℚ} {l : List ℚ} (hx : x ∈ l) : x ≤ jsMaxList l := by
  cases l with
  | nil => cases hx
  | cons y ys =>
    rcases List.mem_cons.mp hx with h | h
    · exact h ▸ le_foldl_max y ys
    · exact foldl_max_le_of_mem h y

lemma jsMaxList_mem {l : List ℚ} (hl : l ≠ []) : jsMaxList l ∈ l := by
  cases l with
  | nil => exact absurd rfl hl
  | cons y ys => exact foldl_max_mem y ys

lemma jsMinList_le {x : ℚ} {l : List ℚ} (hx : x ∈ l) : jsMinList l ≤ x := by
  cases l with
  | nil => cases hx
  | cons y ys =>
    rcases List.mem_cons.mp hx with h | h
    · exact h ▸ foldl_min_le y ys
    · exact le_foldl_min_of_mem h y

lemma jsMinList_mem {l : List ℚ} (hl : l ≠ []) : jsMinList l ∈ l := by
  cases l with
  | nil => exact absurd rfl hl
  | cons y ys => exact foldl_min_mem y ys

lemma simStep_fst_scaled (sig : Signal) (st : SimState) (c : Candle)
    (h : st.scaledOut = true) : (simStep sig st c).1 = st := by
  cases hside : sig.side <;> (simp [simStep, hside, h]; split <;> rfl)

lemma simStep_stop_inv (sig : Signal) (st : SimState) (c : Candle)
    (h : st.scaledOut = true → st.stop = sig.entryPrice) :
    (simStep sig st c).1.scaledOut = true →
    (simStep sig st c).1.stop = sig.entryPrice := by
  by_cases hsc : st.scaledOut = true
  · rw [simStep_fst_scaled sig st c hsc]
    exact fun _ => h hsc
  · cases hside : sig.side <;> simp only [simStep, hside] <;> split <;> split <;>
      simp_all

lemma simRun_stop_inv (sig : Signal) :
    ∀ (cs : List Candle) (st : SimState),
      (st.scaledOut = true → st.stop = sig.entryPrice) →
      (simRun sig st cs).1.scaledOut = true →
      (simRun sig st cs).1.stop = sig.entryPrice
  | [], st, h => by simpa [simRun] using h
  | [c], st, h => by
    have h1 := simStep_stop_inv sig st c h
    rcases hs : simStep sig st c with ⟨st1, ex⟩
    rw [hs] at h1
    cases ex <;> simpa [simRun, hs] using h1
  | c :: c2 :: rest, st, h => by
    have h1 := simStep_stop_inv sig st c h
    rcases hs : simStep sig st c with ⟨st1, ex⟩
    rw [hs] at h1
    cases ex with
    | none =>
      have := simRun_stop_inv sig (c2 :: rest) st1 h1
      simpa [simRun, hs] using this
    | some pr => simpa [simRun, hs] using h1

lemma checkPosition_scaled (pos : BotPosition) (price : ℚ)
    (h : pos.scaledOut = true) :
    (checkPosition pos price).stopLoss = pos.stopLoss ∧
    (checkPosition pos price).scaledOut = true := by
  cases hside : pos.side <;> (simp [checkPosition, hside, h]; split <;> simp [h])

lemma checkPosition_stop_inv (pos : BotPosition) (price : ℚ)
    (h : pos.scaledOut = true → pos.stopLoss = pos.entryPrice) :
    (checkPosition pos price).scaledOut = true →
    (checkPosition pos price).stopLoss = pos.entryPrice := by
  by_cases hsc : pos.scaledOut = true
  · obtain ⟨h1, _⟩ := checkPosition_scaled pos price hsc
    rw [h1]
    exact fun _ => h hsc
  · cases hside : pos.side <;> simp only [checkPosition, hside] <;>
      split <;> split <;> simp_all

/-! ## The claims -/

/-- C1, counterexample.  On `dataC1` the `backtestDay` variant sees bar 2
reach both the target (high 12 ≥ 11.01 = 10.01 + 1R) and the stop
(low 8 ≤ 9), and it exits at the stop with `STOP_LOSS` — the stop check runs
before the target check in this variant, so the claimed target-first
priority does not hold in every variant. -/
theorem C1_counterexample :
    backtestDay "X" dataC1 p1 = some tC1 ∧
    tC1.reason = "STOP_LOSS" ∧ tC1.exitPrice = 9 ∧
    ((1001:ℚ)/100 + 1 ≤ (dataC1.getD 2 dummyCandle).high ∧
     (dataC1.getD 2 dummyCandle).low ≤ 9) := by
  refine ⟨?_, rfl, rfl, by norm_num [dataC1], by norm_num [dataC1]⟩
  norm_num [backtestDay, dayLoop, manageStep, dataC1, p1, jsMaxList, jsMinList, tC1]

/-- C1, amended.  In the `simulateTrade` variant a LONG bar that reaches
both the scale-out target and the original stop is scaled out first and then
stopped at breakeven (`TRAIL_STOP` at the entry price); `checkPosition`
likewise checks the target before the stop; but in the `backtestDay` variant
the stop check comes first, so any bar reaching the stop exits `STOP_LOSS`
at the stop price regardless of its high.  The EOD exit is last in all
variants (`simRun` only exits `EOD` on a last bar where `simStep` fired no
exit). -/
theorem C1_amended :
    (∀ (sig : Signal) (st : SimState) (c : Candle),
      sig.side = Side.LONG → st.scaledOut = false →
      sig.target1 ≤ c.high → c.low ≤ sig.stop → sig.stop ≤ sig.entryPrice →
      simStep sig st c =
        (⟨true, sig.entryPrice, st.pnlAcc + (sig.target1 - sig.entryPrice) * (1/2)⟩,
         some (sig.entryPrice, "TRAIL_STOP"))) ∧
    (∀ (pos : BotPosition) (price : ℚ),
      pos.side = Side.LONG → pos.scaledOut = false →
      pos.target1 ≤ price → pos.entryPrice < price →
      (checkPosition pos price).scaledOut = true ∧
      (checkPosition pos price).stopLoss = pos.entryPrice ∧
      (checkPosition pos price).status = pos.status) ∧
    (∀ (symbol : String) (params : ORBParams) (pos : DayPos) (c : Candle) (i : ℕ),
      c.low ≤ pos.stopPrice →
      manageStep symbol params pos c i =
        some ⟨symbol, pos.entryTime, c.date, Side.LONG, pos.entryPrice,
              pos.stopPrice, 100, (pos.stopPrice - pos.entryPrice) * 100,
              (pos.stopPrice - pos.entryPrice) / pos.entryPrice * 100,
              "STOP_LOSS", 0, 0⟩) ∧
    (∀ (sig : Signal) (st st1 : SimState) (c : Candle),
      simStep sig st c = (st1, none) →
      simRun sig st [c] = (st1, c.close, "EOD")) := by
  refine ⟨?_, ?_, ?_, ?_⟩
  · intro sig st c hL hsc htgt hlow hbe
    have h : c.low ≤ sig.entryPrice := le_trans hlow hbe
    simp [simStep, hL, hsc, htgt, h]
  · intro pos price hL hsc htgt hgt
    have h : ¬price ≤ pos.entryPrice := not_le.mpr hgt
    simp [checkPosition, hL, hsc, htgt, h]
  · intro symbol params pos c i hlow
    simp [manageStep, hlow]
  · intro sig st st1 c h
    simp [simRun, h]

/-- C1, witness for the amended theorem: the `sigC3` scenario bar scales out
then stops at breakeven under `simulateTrade`'s step, while the `dataC1`
bar 2 exits `STOP_LOSS` under `backtestDay`'s step. -/
theorem C1_witness :
    simStep sigC3 ⟨false, 100, 0⟩ ⟨"b", 102, 104, 100, 103, 5⟩ =
      (⟨true, 102, 1⟩, some (102, "TRAIL_STOP")) ∧
    manageStep "X" p1 ⟨1001/100, 9, 1101/100, "c1"⟩ ⟨"c2", 11, 12, 8, 11, 1⟩ 2 =
      some ⟨"X", "c1", "c2", Side.LONG, 1001/100, 9, 100,
            (9 - 1001/100) * 100, (9 - 1001/100) / (1001/100) * 100,
            "STOP_LOSS", 0, 0⟩ := by
  constructor
  · have h := C1_amended.1 sigC3 ⟨false, 100, 0⟩ ⟨"b", 102, 104, 100, 103, 5⟩
      rfl rfl (by norm_num [sigC3]) (by norm_num [sigC3]) (by norm_num [sigC3])
    rw [h]
    norm_num [sigC3]
  · exact C1_amended.2.2.1 "X" p1 ⟨1001/100, 9, 1101/100, "c1"⟩
      ⟨"c2", 11, 12, 8, 11, 1⟩ 2 (by norm_num)

/-- C2: once `scaledOut` is set the stop equals the entry price and no later
candle changes it: a scaled-out `simStep` leaves the state untouched; the
breakeven property is preserved by `simStep`, by the whole `simRun` loop
(in particular from `simulateTrade`'s initial state), and by the live bot's
`checkPosition`, which also never changes the stop of a scaled-out
position. -/
theorem C2_breakeven :
    (∀ (sig : Signal) (st : SimState) (c : Candle), st.scaledOut = true →
      (simStep sig st c).1 = st) ∧
    (∀ (sig : Signal) (st : SimState) (c : Candle),
      (st.scaledOut = true → st.stop = sig.entryPrice) →
      (simStep sig st c).1.scaledOut = true →
      (simStep sig st c).1.stop = sig.entryPrice) ∧
    (∀ (sig : Signal) (cs : List Candle) (st : SimState),
      (st.scaledOut = true → st.stop = sig.entryPrice) →
      (simRun sig st cs).1.scaledOut = true →
      (simRun sig st cs).1.stop = sig.entryPrice) ∧
    (∀ (sig : Signal) (cs : List Candle),
      (simRun sig ⟨false, sig.stop, 0⟩ cs).1.scaledOut = true →
      (simRun sig ⟨false, sig.stop, 0⟩ cs).1.stop = sig.entryPrice) ∧
    (∀ (pos : BotPosition) (price : ℚ), pos.scaledOut = true →
      (checkPosition pos price).stopLoss = pos.stopLoss ∧
      (checkPosition pos price).scaledOut = true) ∧
    (∀ (pos : BotPosition) (price : ℚ),
      (pos.scaledOut = true → pos.stopLoss = pos.entryPrice) →
      (checkPosition pos price).scaledOut = true →
      (checkPosition pos price).stopLoss = pos.entryPrice) := by
  refine ⟨simStep_fst_scaled, simStep_stop_inv, ?_, ?_, checkPosition_scaled,
    checkPosition_stop_inv⟩
  · intro sig cs st h
    exact simRun_stop_inv sig cs st h
  · intro sig cs
    exact simRun_stop_inv sig cs ⟨false, sig.stop, 0⟩ (by simp)

/-- C2, witness: the scaled-out state of the `sigC3` run is left untouched
by a further bar, and the full `sigC3` run ends scaled out with the stop at
the entry price 102. -/
theorem C2_witness :
    (simStep sigC3 ⟨true, 102, 1⟩ ⟨"b3", 103, 103, 102, 103, 5⟩).1 =
      (⟨true, 102, 1⟩ : SimState) ∧
    (simRun sigC3 ⟨false, sigC3.stop, 0⟩ sigC3.candles).1.stop =
      sigC3.entryPrice := by
  constructor
  · exact C2_breakeven.1 sigC3 ⟨true, 102, 1⟩ ⟨"b3", 103, 103, 102, 103, 5⟩ rfl
  · exact C2_breakeven.2.2.2.1 sigC3 sigC3.candles
      (by norm_num [simRun, simStep, sigC3])

/-- C7, counterexample.  `loadState` has no try/catch around
`JSON.parse(fs.readFileSync(...))`: on an unreadable or corrupt state file
the exception escapes, so loading does not yield a fresh empty state and is
not non-fatal. -/
theorem C7_counterexample :
    loadState "2024-01-02" FileRead.corrupt = Except.error () ∧
    ∀ s : BotState, loadState "2024-01-02" FileRead.corrupt ≠ Except.ok s :=
  ⟨rfl, fun _ h => by cases h⟩

/-- C7, amended: the stored state is returned exactly when its date equals
today's; a missing file or a date mismatch yields a fresh empty state; but a
file whose read or parse throws makes `loadState` itself throw. -/
theorem C7_amended :
    (∀ (today : String) (s : BotState), s.date = today →
      loadState today (FileRead.parsed s) = Except.ok s) ∧
    (∀ (today : String) (s : BotState), s.date ≠ today →
      loadState today (FileRead.parsed s) = Except.ok (freshState today)) ∧
    (∀ today : String,
      loadState today FileRead.absent = Except.ok (freshState today)) ∧
    (∀ today : String,
      loadState today FileRead.corrupt = Except.error ()) := by
  refine ⟨?_, ?_, fun _ => rfl, fun _ => rfl⟩
  · intro today s h
    simp [loadState, h]
  · intro today s h
    simp [loadState, h]

/-- C7, witness: a state stored for 2024-01-01 is returned on 2024-01-01 and
replaced by a fresh state on 2024-01-02. -/
theorem C7_witness :
    loadState "2024-01-01" (FileRead.parsed wState) = Except.ok wState ∧
    loadState "2024-01-02" (FileRead.parsed wState) =
      Except.ok (freshState "2024-01-02") ∧
    loadState "2024-01-02" FileRead.absent =
      Except.ok (freshState "2024-01-02") :=
  ⟨C7_amended.1 "2024-01-01" wState rfl,
   C7_amended.2.1 "2024-01-02" wState (by decide),
   C7_amended.2.2.1 "2024-01-02"⟩

/-- C8: when a position is open at candle `i`, the entry happened at an
index no earlier than the opening range (`rangeMinutes ≤ entryIdx`), at
least `maxHoldMinutes` bars have passed since entry, and neither the stop
nor the target fires on this candle, `backtestDay`'s management step closes
the position at this candle's close with reason `TIME_EXIT`. -/
theorem C8_time_exit :
    ∀ (symbol : String) (params : ORBParams) (pos : DayPos) (c : Candle)
      (i entryIdx : ℕ),
      params.rangeMinutes ≤ entryIdx →
      entryIdx + params.maxHoldMinutes ≤ i →
      pos.stopPrice < c.low →
      c.high < pos.targetPrice →
      manageStep symbol params pos c i =
        some ⟨symbol, pos.entryTime, c.date, Side.LONG, pos.entryPrice, c.close,
              100, (c.close - pos.entryPrice) * 100,
              (c.close - pos.entryPrice) / pos.entryPrice * 100,
              "TIME_EXIT", 0, 0⟩ := by
  intro symbol params pos c i entryIdx hentry hhold hstop htgt
  have h1 : ¬c.low ≤ pos.stopPrice := not_le.mpr hstop
  have h2 : ¬pos.targetPrice ≤ c.high := not_le.mpr htgt
  have h3 : params.rangeMinutes + params.maxHoldMinutes ≤ i :=
    le_trans (Nat.add_le_add_right hentry params.maxHoldMinutes) hhold
  simp [manageStep, h1, h2, h3]

/-- C8, witness: 61 bars into a 1-bar-range day (60-minute hold, entry at
bar 1), a bar that hits neither the stop 9 nor the target 11.01 closes the
position at its close with `TIME_EXIT`. -/
theorem C8_witness :
    manageStep "X" p1 ⟨1001/100, 9, 1101/100, "c1"⟩
      ⟨"c61", 10, 21/2, 10, 10, 1⟩ 61 =
      some ⟨"X", "c1", "c61", Side.LONG, 1001/100, 10, 100,
            (10 - 1001/100) * 100, (10 - 1001/100) / (1001/100) * 100,
            "TIME_EXIT", 0, 0⟩ :=
  C8_time_exit "X" p1 ⟨1001/100, 9, 1101/100, "c1"⟩
    ⟨"c61", 10, 21/2, 10, 10, 1⟩ 61 1
    (by norm_num [p1]) (by norm_num [p1]) (by norm_num) (by norm_num)

/-- C3: for every trade `simulateTrade` returns, the reported PnL equals the
loop's accumulated scale-out PnL plus the side-adjusted exit-minus-entry
move times the remaining fraction (1/2 when scaled out, 1 otherwise), and
the reported return percent equals PnL over entry price times 100; and on
the spec's concrete scenario (`sigC3`: LONG at $102, height $2, scale-out at
$104, breakeven stop touched at $102) the trade returns exactly
50/51 ≈ 0.98% with reason `TRAIL_STOP`. -/
theorem C3_return :
    (∀ (sig : Signal) (t : Trade), simulateTrade sig = some t →
      t.exitPrice = (simRun sig ⟨false, sig.stop, 0⟩ sig.candles).2.1 ∧
      t.reason = (simRun sig ⟨false, sig.stop, 0⟩ sig.candles).2.2 ∧
      t.pnl = (simRun sig ⟨false, sig.stop, 0⟩ sig.candles).1.pnlAcc +
        (if sig.side = Side.LONG then t.exitPrice - sig.entryPrice
         else sig.entryPrice - t.exitPrice) *
        (if (simRun sig ⟨false, sig.stop, 0⟩ sig.candles).1.scaledOut then
           (1:ℚ)/2 else 1) ∧
      t.returnPercent = t.pnl / sig.entryPrice * 100) ∧
    (simulateTrade sigC3).map (fun t => (t.pnl, t.returnPercent, t.reason)) =
      some (1, 50/51, "TRAIL_STOP") := by
  constructor
  · intro sig t h
    simp only [simulateTrade] at h
    by_cases hz : (simRun sig ⟨false, sig.stop, 0⟩ sig.candles).2.1 = 0
    · simp [hz] at h
    · simp only [hz, if_false, Option.some.injEq] at h
      subst h
      refine ⟨rfl, rfl, ?_, rfl⟩
      simp
  · norm_num [simulateTrade, simRun, simStep, sigC3]

/-- C3, witness: the general PnL decomposition instantiated at the concrete
`sigC3` scenario and its trade `tC3`. -/
theorem C3_witness :
    tC3.exitPrice = (simRun sigC3 ⟨false, sigC3.stop, 0⟩ sigC3.candles).2.1 ∧
    tC3.reason = (simRun sigC3 ⟨false, sigC3.stop, 0⟩ sigC3.candles).2.2 ∧
    tC3.pnl = (simRun sigC3 ⟨false, sigC3.stop, 0⟩ sigC3.candles).1.pnlAcc +
      (if sigC3.side = Side.LONG then tC3.exitPrice - sigC3.entryPrice
       else sigC3.entryPrice - tC3.exitPrice) *
      (if (simRun sigC3 ⟨false, sigC3.stop, 0⟩ sigC3.candles).1.scaledOut then
         (1:ℚ)/2 else 1) ∧
    tC3.returnPercent = tC3.pnl / sigC3.entryPrice * 100 :=
  C3_return.1 sigC3 tC3 (by norm_num [simulateTrade, simRun, simStep, sigC3, tC3])

/-- C5: a session with fewer than 7 candles (`openingRangeSize + 1` with the
source's `openingRangeSize = 6`) yields no signal from `checkSignal`, a
session with fewer than `rangeMinutes + 1` candles yields no trade from
`backtestDay`; otherwise the opening range values `checkSignal` uses are the
maximum of the highs and the minimum of the lows over the first 6 candles,
and the average volume is the mean of their volumes. -/
theorem C5_opening_range :
    (∀ (symbol : String) (candles : List Candle) (prevClose : ℚ),
      candles.length < 7 → checkSignal symbol candles prevClose = none) ∧
    (∀ (symbol : String) (dailyData : List Candle) (params : ORBParams),
      dailyData.length < params.rangeMinutes + 1 →
      backtestDay symbol dailyData params = none) ∧
    (∀ candles : List Candle, 7 ≤ candles.length →
      (∀ c ∈ candles.take 6, c.high ≤ orbRangeHigh candles) ∧
      (∃ c ∈ candles.take 6, orbRangeHigh candles = c.high) ∧
      (∀ c ∈ candles.take 6, orbRangeLow candles ≤ c.low) ∧
      (∃ c ∈ candles.take 6, orbRangeLow candles = c.low) ∧
      orbAvgVol candles =
        ((candles.take 6).map (·.volume)).sum / ((candles.take 6).length : ℚ)) := by
  refine ⟨?_, ?_, ?_⟩
  · intro symbol candles prevClose h
    simp [checkSignal, h]
  · intro symbol dailyData params h
    simp [backtestDay, h]
  · intro candles hlen
    have h6 : (candles.take 6).length = 6 := by
      rw [List.length_take]
      omega
    have hne : (candles.take 6).map (·.high) ≠ [] := by
      have hl : ((candles.take 6).map (·.high)).length = 6 := by simp [h6]; omega
      intro hcontra
      rw [hcontra] at hl
      simp at hl
    have hneL : (candles.take 6).map (·.low) ≠ [] := by
      have hl : ((candles.take 6).map (·.low)).length = 6 := by simp [h6]; omega
      intro hcontra
      rw [hcontra] at hl
      simp at hl
    refine ⟨?_, ?_, ?_, ?_, ?_⟩
    · intro c hc
      exact jsMaxList_ge (List.mem_map_of_mem (·.high) hc)
    · obtain ⟨c, hc, heq⟩ := List.mem_map.mp (jsMaxList_mem hne)
      exact ⟨c, hc, heq.symm⟩
    · intro c hc
      exact jsMinList_le (List.mem_map_of_mem (·.low) hc)
    · obtain ⟨c, hc, heq⟩ := List.mem_map.mp (jsMinList_mem hneL)
      exact ⟨c, hc, heq.symm⟩
    · rw [orbAvgVol, h6]
      norm_num

/-- C5, witness: a one-candle session gives no signal and no trade, and the
range values of the 7-candle session `wCandles` satisfy the max/min/mean
characterisation. -/
theorem C5_witness :
    checkSignal "X" [⟨"d0", 10, 10, 9, 10, 1⟩] 100 = none ∧
    backtestDay "X" [⟨"d0", 10, 10, 9, 10, 1⟩] p1 = none ∧
    (∀ c ∈ wCandles.take 6, c.high ≤ orbRangeHigh wCandles) ∧
    (∃ c ∈ wCandles.take 6, orbRangeHigh wCandles = c.high) ∧
    (∀ c ∈ wCandles.take 6, orbRangeLow wCandles ≤ c.low) ∧
    (∃ c ∈ wCandles.take 6, orbRangeLow wCandles = c.low) ∧
    orbAvgVol wCandles =
      ((wCandles.take 6).map (·.volume)).sum / ((wCandles.take 6).length : ℚ) := by
  obtain ⟨r1, r2, r3, r4, r5⟩ :=
    C5_opening_range.2.2 wCandles (by norm_num [wCandles])
  exact ⟨C5_opening_range.1 "X" _ 100 (by norm_num),
         C5_opening_range.2.1 "X" _ p1 (by norm_num [p1]),
         r1, r2, r3, r4, r5⟩

/-- C6: `aggregateResults` reports a zero profit factor on an empty ledger
and on an all-losing ledger; the `Infinity` sentinel when the losers' return
percents sum to zero while a winner exists (ledger trades have
`won = pnlPercent > 0` by construction, hence the positivity hypothesis);
and the winners-sum over absolute losers-sum ratio whenever the losers' sum
is nonzero. -/
theorem C6_profit_factor :
    ((aggregateResults []).profitFactor = JsNum.num 0) ∧
    (∀ trades : List GapTrade, (∀ t ∈ trades, t.won = false) →
      (aggregateResults trades).profitFactor = JsNum.num 0) ∧
    (∀ trades : List GapTrade,
      (∀ t ∈ trades, t.won = true → 0 < t.pnlPercent) →
      ((trades.filter (fun t => ¬t.won)).map (·.pnlPercent)).sum = 0 →
      (∃ t ∈ trades, t.won = true) →
      (aggregateResults trades).profitFactor = JsNum.inf) ∧
    (∀ trades : List GapTrade, trades ≠ [] →
      0 < jsAbs (((trades.filter (fun t => ¬t.won)).map (·.pnlPercent)).sum) →
      (aggregateResults trades).profitFactor =
        JsNum.num (((trades.filter (fun t => t.won)).map (·.pnlPercent)).sum /
          jsAbs (((trades.filter (fun t => ¬t.won)).map (·.pnlPercent)).sum))) := by
  refine ⟨rfl, ?_, ?_, ?_⟩
  · intro trades hall
    cases trades with
    | nil => rfl
    | cons a l =>
      have hwins : (a :: l).filter (fun t => t.won) = [] := by
        rw [List.filter_eq_nil_iff]
        intro t ht
        simp [hall t ht]
      simp only [aggregateResults, List.length_cons]
      rw [if_neg (by omega)]
      simp only [hwins, List.map_nil, List.sum_nil]
      split
      · simp [zero_div]
      · norm_num
  · intro trades hwf hsum hex
    obtain ⟨w, hw, hwon⟩ := hex
    have hne : trades ≠ [] := by
      intro h
      rw [h] at hw
      cases hw
    have hwinmem : w ∈ trades.filter (fun t => t.won) :=
      List.mem_filter.mpr ⟨hw, hwon⟩
    have hwinsne : (trades.filter (fun t => t.won)).map (·.pnlPercent) ≠ [] := by
      intro h
      have := List.mem_map_of_mem (·.pnlPercent) hwinmem
      rw [h] at this
      cases this
    have hpos : 0 < ((trades.filter (fun t => t.won)).map (·.pnlPercent)).sum := by
      apply List.sum_pos
      · intro x hx
        obtain ⟨t, ht, rfl⟩ := List.mem_map.mp hx
        have := List.mem_filter.mp ht
        exact hwf t this.1 this.2
      · exact hwinsne
    cases trades with
    | nil => exact absurd rfl hne
    | cons a l =>
      simp only [aggregateResults, List.length_cons]
      rw [if_neg (by omega)]
      simp only [hsum]
      rw [if_neg (by norm_num [jsAbs]), if_pos hpos]
  · intro trades hne habs
    cases trades with
    | nil => exact absurd rfl hne
    | cons a l =>
      simp only [aggregateResults, List.length_cons]
      rw [if_neg (by omega)]
      rw [if_pos habs]

/-- C6, witness: an all-losing two-trade ledger gives profit factor 0, a
ledger with a winner and a zero-sum loser gives the `Infinity` sentinel, and
a mixed ledger gives the winners/|losers| ratio. -/
theorem C6_witness :
    (aggregateResults [gTrade (-2) false, gTrade (-1) false]).profitFactor =
      JsNum.num 0 ∧
    (aggregateResults [gTrade 3 true, gTrade 0 false]).profitFactor =
      JsNum.inf ∧
    (aggregateResults [gTrade 3 true, gTrade (-2) false]).profitFactor =
      JsNum.num (((([gTrade 3 true, gTrade (-2) false]).filter
          (fun t => t.won)).map (·.pnlPercent)).sum /
        jsAbs (((([gTrade 3 true, gTrade (-2) false]).filter
          (fun t => ¬t.won)).map (·.pnlPercent)).sum)) := by
  refine ⟨?_, ?_, ?_⟩
  · exact C6_profit_factor.2.1 [gTrade (-2) false, gTrade (-1) false]
      (by norm_num [gTrade])
  · exact C6_profit_factor.2.2.1 [gTrade 3 true, gTrade 0 false]
      (by norm_num [gTrade]) (by norm_num [gTrade])
      ⟨gTrade 3 true, by norm_num, rfl⟩
  · exact C6_profit_factor.2.2.2 [gTrade 3 true, gTrade (-2) false]
      (by simp) (by norm_num [gTrade, jsAbs])

/-- C10: the ranked-portfolio report divides by the executed-trade count and
by the absolute losers' sum with no zero guard, so a run with zero executed
trades reports `NaN` win rate, average return and profit factor, and a
nonempty run with no losing trade reports an `Infinity` (or, with no winner
either, `NaN`) profit factor — never 0 or a "no candidates" value. -/
theorem C10_no_zero_guard :
    ((portfolioReport []).winRate = JsNum.nan ∧
     (portfolioReport []).avgReturn = JsNum.nan ∧
     (portfolioReport []).profitFactor = JsNum.nan) ∧
    (∀ trades : List Trade, trades ≠ [] →
      (∀ t ∈ trades, ¬t.pnl < 0) →
      (∀ t ∈ trades, 0 < t.pnl → 0 < t.returnPercent) →
      (portfolioReport trades).profitFactor = JsNum.inf ∨
      (portfolioReport trades).profitFactor = JsNum.nan) := by
  constructor
  · refine ⟨?_, ?_, ?_⟩ <;> norm_num [portfolioReport, jsDiv, jsMulPos, jsAbs]
  · intro trades hne hnl hwf
    have hlos : trades.filter (fun t => t.pnl < 0) = [] := by
      rw [List.filter_eq_nil_iff]
      intro t ht
      simp [hnl t ht]
    have hnn : 0 ≤ ((trades.filter (fun t => 0 < t.pnl)).map (·.returnPercent)).sum := by
      apply List.sum_nonneg
      intro x hx
      obtain ⟨t, ht, rfl⟩ := List.mem_map.mp hx
      have h2 := List.mem_filter.mp ht
      exact le_of_lt (hwf t h2.1 (by simpa using h2.2))
    rcases eq_or_lt_of_le hnn with heq | hlt
    · right
      simp only [portfolioReport, hlos, List.map_nil, List.sum_nil]
      simp [jsDiv, jsAbs, ← heq]
    · left
      simp only [portfolioReport, hlos, List.map_nil, List.sum_nil]
      simp [jsDiv, jsAbs, hlt, ne_of_gt hlt]

/-- C10, witness: the one-win ledger of the `sigC3` scenario has no loser,
so its reported profit factor is `Infinity` or `NaN` (here `Infinity`). -/
theorem C10_witness :
    (portfolioReport wLedger).profitFactor = JsNum.inf ∨
    (portfolioReport wLedger).profitFactor = JsNum.nan :=
  C10_no_zero_guard.2 wLedger (by norm_num [wLedger])
    (by norm_num [wLedger]) (by norm_num [wLedger])

lemma getD_drop (l : List Candle) (n m : ℕ) :
    (l.drop n).getD m dummyCandle = l.getD (n + m) dummyCandle := by
  simp [List.getD_eq_getElem?_getD, List.getElem?_drop]

lemma scanTrigger_spec (rh rl av : ℚ) :
    ∀ (l : List Candle) (i0 k : ℕ) (sd : Side) (rv : ℚ),
      scanTrigger rh rl av l i0 = some (k, sd, rv) →
      i0 ≤ k ∧ k - i0 < l.length ∧
      volGate av (l.getD (k - i0) dummyCandle) ∧
      breaches rh rl (l.getD (k - i0) dummyCandle) ∧
      (sd = Side.LONG ↔ rh < (l.getD (k - i0) dummyCandle).high) ∧
      (∀ j < k - i0, ¬(volGate av (l.getD j dummyCandle) ∧
        breaches rh rl (l.getD j dummyCandle))) ∧
      rv = (if 0 < av then (l.getD (k - i0) dummyCandle).volume / av else 0) := by
  intro l
  induction l with
  | nil =>
    intro i0 k sd rv h
    simp [scanTrigger] at h
  | cons c rest ih =>
    intro i0 k sd rv h
    simp only [scanTrigger] at h
    by_cases hg : 0 < c.volume ∧ c.volume < av * (4/5)
    · rw [if_pos hg] at h
      obtain ⟨h1, h2, h3, h4, h5, h6, h7⟩ := ih (i0 + 1) k sd rv h
      have hsub : k - i0 = (k - (i0 + 1)) + 1 := by omega
      rw [hsub, List.getD_cons_succ]
      refine ⟨by omega, by simp only [List.length_cons]; omega, h3, h4, h5, ?_, h7⟩
      intro j hj
      cases j with
      | zero =>
        simp only [List.getD_cons_zero]
        intro hcontra
        exact hcontra.1 hg
      | succ j2 =>
        simp only [List.getD_cons_succ]
        exact h6 j2 (by omega)
    · rw [if_neg hg] at h
      by_cases hH : rh < c.high
      · rw [if_pos hH] at h
        simp only [Option.some.injEq, Prod.mk.injEq] at h
        obtain ⟨hk, hsd, hrv⟩ := h
        subst hk
        subst hsd
        simp only [Nat.sub_self, List.getD_cons_zero]
        refine ⟨le_refl _, by simp, hg, Or.inl hH, by simp [hH], ?_, hrv.symm⟩
        intro j hj
        omega
      · rw [if_neg hH] at h
        by_cases hL : c.low < rl
        · rw [if_pos hL] at h
          simp only [Option.some.injEq, Prod.mk.injEq] at h
          obtain ⟨hk, hsd, hrv⟩ := h
          subst hk
          subst hsd
          simp only [Nat.sub_self, List.getD_cons_zero]
          refine ⟨le_refl _, by simp, hg, Or.inr hL, by simp [hH], ?_, hrv.symm⟩
          intro j hj
          omega
        · rw [if_neg hL] at h
          obtain ⟨h1, h2, h3, h4, h5, h6, h7⟩ := ih (i0 + 1) k sd rv h
          have hsub : k - i0 = (k - (i0 + 1)) + 1 := by omega
          rw [hsub, List.getD_cons_succ]
          refine ⟨by omega, by simp only [List.length_cons]; omega, h3, h4, h5, ?_, h7⟩
          intro j hj
          cases j with
          | zero =>
            simp only [List.getD_cons_zero]
            intro hcontra
            rcases hcontra.2 with hb | hb
            · exact hH hb
            · exact hL hb
          | succ j2 =>
            simp only [List.getD_cons_succ]
            exact h6 j2 (by omega)

/-- C4: whenever `checkSignal` emits a signal, re-running it on the same
input yields that same single signal, and the signal's trigger bar is the
first bar at or after index 6 that passes the volume gate and breaches the
range; the side is LONG exactly when that bar's high exceeds the range high
(so LONG wins when both sides breach in one bar), every earlier post-window
bar fails the gate or does not breach, and the signal keeps the candles from
the trigger bar on. -/
theorem C4_first_breakout :
    ∀ (symbol : String) (candles : List Candle) (prevClose : ℚ) (sig : Signal),
      checkSignal symbol candles prevClose = some sig →
      (∀ sig2, checkSignal symbol candles prevClose = some sig2 → sig2 = sig) ∧
      ∃ i, 6 ≤ i ∧ i < candles.length ∧
        volGate (orbAvgVol candles) (candles.getD i dummyCandle) ∧
        breaches (orbRangeHigh candles) (orbRangeLow candles)
          (candles.getD i dummyCandle) ∧
        (sig.side = Side.LONG ↔
          orbRangeHigh candles < (candles.getD i dummyCandle).high) ∧
        (∀ j, 6 ≤ j → j < i →
          ¬(volGate (orbAvgVol candles) (candles.getD j dummyCandle) ∧
            breaches (orbRangeHigh candles) (orbRangeLow candles)
              (candles.getD j dummyCandle))) ∧
        sig.candles = candles.drop i := by
  intro symbol candles prevClose sig h
  refine ⟨fun sig2 h2 => by rw [h] at h2; exact (Option.some.inj h2).symm, ?_⟩
  have hlen : ¬candles.length < 7 := by
    intro hc
    rw [checkSignal, if_pos hc] at h
    cases h
  simp only [checkSignal, if_neg hlen] at h
  split at h
  · cases h
  · split at h
    · cases h
    · split at h
      · cases h
      · split at h
        · cases h
        · rename_i k rv heq
          obtain rfl := Option.some.inj h
          obtain ⟨h1, h2, h3, h4, h5, h6, h7⟩ :=
            scanTrigger_spec (orbRangeHigh candles) (orbRangeLow candles)
              (orbAvgVol candles) (candles.drop 6) 6 k Side.LONG rv heq
          refine ⟨k, h1, ?_, ?_, ?_, ?_, ?_, rfl⟩
          · have := List.length_drop 6 candles
            omega
          · rw [getD_drop] at h3
            rwa [Nat.add_sub_cancel' h1] at h3
          · rw [getD_drop] at h4
            rwa [Nat.add_sub_cancel' h1] at h4
          · rw [getD_drop, Nat.add_sub_cancel' h1] at h5
            simpa using h5
          · intro j hj6 hjk
            have hh := h6 (j - 6) (by omega)
            rw [getD_drop] at hh
            rwa [Nat.add_sub_cancel' hj6] at hh
        · rename_i k rv heq
          obtain rfl := Option.some.inj h
          obtain ⟨h1, h2, h3, h4, h5, h6, h7⟩ :=
            scanTrigger_spec (orbRangeHigh candles) (orbRangeLow candles)
              (orbAvgVol candles) (candles.drop 6) 6 k Side.SHORT rv heq
          refine ⟨k, h1, ?_, ?_, ?_, ?_, ?_, rfl⟩
          · have := List.length_drop 6 candles
            omega
          · rw [getD_drop] at h3
            rwa [Nat.add_sub_cancel' h1] at h3
          · rw [getD_drop] at h4
            rwa [Nat.add_sub_cancel' h1] at h4
          · rw [getD_drop, Nat.add_sub_cancel' h1] at h5
            simpa using h5
          · intro j hj6 hjk
            have hh := h6 (j - 6) (by omega)
            rw [getD_drop] at hh
            rwa [Nat.add_sub_cancel' hj6] at hh

/-- C4, witness: the first-trigger characterisation instantiated on the
7-candle session `wCandles`, whose bar 6 triggers the LONG signal `wSig`. -/
theorem C4_witness :
    (∀ sig2, checkSignal "X" wCandles 100 = some sig2 → sig2 = wSig) ∧
    ∃ i, 6 ≤ i ∧ i < wCandles.length ∧
      volGate (orbAvgVol wCandles) (wCandles.getD i dummyCandle) ∧
      breaches (orbRangeHigh wCandles) (orbRangeLow wCandles)
        (wCandles.getD i dummyCandle) ∧
      (wSig.side = Side.LONG ↔
        orbRangeHigh wCandles < (wCandles.getD i dummyCandle).high) ∧
      (∀ j, 6 ≤ j → j < i →
        ¬(volGate (orbAvgVol wCandles) (wCandles.getD j dummyCandle) ∧
          breaches (orbRangeHigh wCandles) (orbRangeLow wCandles)
            (wCandles.getD j dummyCandle))) ∧
      wSig.candles = wCandles.drop i :=
  C4_first_breakout "X" wCandles 100 wSig
    (by norm_num [checkSignal, wCandles, wSig, orbRangeHigh, orbRangeLow,
      orbAvgVol, scanTrigger, jsMaxList, jsMinList, jsAbs, dummyCandle])

lemma manageStep_side (symbol : String) (params : ORBParams) (pos : DayPos)
    (c : Candle) (i : ℕ) (t : IntradayTrade)
    (h : manageStep symbol params pos c i = some t) : t.side = Side.LONG := by
  simp only [manageStep] at h
  split at h
  · obtain rfl := Option.some.inj h
    rfl
  · split at h
    · obtain rfl := Option.some.inj h
      rfl
    · split at h
      · obtain rfl := Option.some.inj h
        rfl
      · cases h

lemma dayLoop_side (symbol : String) (params : ORBParams)
    (rangeHigh rangeLow rangeHeight : ℚ) :
    ∀ (l : List Candle) (i : ℕ) (pos : Option DayPos) (t : IntradayTrade),
      dayLoop symbol params rangeHigh rangeLow rangeHeight l i pos = Sum.inr t →
      t.side = Side.LONG
  | [], i, pos, t => by
    intro h
    simp [dayLoop] at h
  | c :: rest, i, none, t => by
    intro h
    simp only [dayLoop] at h
    split at h
    · exact dayLoop_side symbol params rangeHigh rangeLow rangeHeight rest
        (i + 1) _ t h
    · exact dayLoop_side symbol params rangeHigh rangeLow rangeHeight rest
        (i + 1) none t h
  | c :: rest, i, some pos, t => by
    intro h
    simp only [dayLoop] at h
    rcases hm : manageStep symbol params pos c i with _ | tr
    · rw [hm] at h
      exact dayLoop_side symbol params rangeHigh rangeLow rangeHeight rest
        (i + 1) (some pos) t h
    · rw [hm] at h
      obtain rfl := Sum.inr.inj h
      exact manageStep_side symbol params pos c i tr hm

lemma backtestDay_side (symbol : String) (dailyData : List Candle)
    (params : ORBParams) (t : IntradayTrade)
    (h : backtestDay symbol dailyData params = some t) : t.side = Side.LONG := by
  simp only [backtestDay] at h
  split at h
  · cases h
  · split at h
    · cases h
    · split at h
      · rename_i tr heq
        obtain rfl := Option.some.inj h
        exact dayLoop_side symbol params _ _ _ _ _ _ _ heq
      · cases h
      · rename_i pos heq
        obtain rfl := Option.some.inj h
        rfl

/-- C9: every trade `backtestIntraday` returns is a LONG trade, for every
input series and parameter choice — `backtestDay`'s short branch is absent
(a bar whose low falls under the range low while flat opens nothing), so no
variant of the day loop can ever produce a SHORT trade. -/
theorem C9_all_long :
    ∀ (data : List Candle) (symbol : String) (params : ORBParams)
      (t : IntradayTrade), t ∈ backtestIntraday data symbol params →
      t.side = Side.LONG := by
  intro data symbol params t ht
  simp only [backtestIntraday, List.mem_filterMap] at ht
  obtain ⟨g, _, hg⟩ := ht
  exact backtestDay_side symbol g.2 params t hg

lemma sk30 : splitDayKey "2024-01-02T09:30" = "2024-01-02" := by decide

lemma sk31 : splitDayKey "2024-01-02T09:31" = "2024-01-02" := by decide

lemma sk32 : splitDayKey "2024-01-02T09:32" = "2024-01-02" := by decide

/-- C9, witness: the trade produced on the one-session series `dataC9` is
LONG. -/
theorem C9_witness : tC9.side = Side.LONG :=
  C9_all_long dataC9 "X" p1 tC9 (by
    norm_num [backtestIntraday, groupCandlesByDay, dataC9, insertCandle,
      sk30, sk31, sk32, backtestDay, dayLoop, manageStep, p1, jsMaxList,
      jsMinList, tC9])

end Htmw
